import Mathlib

/-! Shallow embedding of the KFMon watch/process supervision engine
(kfmon.c).  Machine integers are modelled as `Nat`/`Int`; the 32-bit
wrap-around of `unsigned int` is written explicitly as `% 2 ^ 32` where it
could matter.  External effects (the SQLite content database, the
filesystem, inotify, fork/pipe/waitpid) are modelled as explicit inputs:
every answer the C code obtains from the outside world is a field of an
environment record or of the decoded event. -/

namespace KFMon

/-! ## The Qt4 mixing hash used for thumbnail directories (qhash) -/

/-- One iteration of the `qhash` loop, translated from the C body
`h = (h << 4) + bytes[i]; h ^= (h & 0xf0000000) >> 23; h &= 0x0fffffff;`
where `h` is a 32-bit `unsigned int` (hence the explicit `% 2 ^ 32` on the
shift-and-add; the xor cannot leave the 32-bit range, and the final mask
keeps 28 bits). -/
def qhash_step (h b : Nat) : Nat :=
  let h1 := (h <<< 4 + b) % 2 ^ 32
  let h2 := h1 ^^^ ((h1 &&& 0xf0000000) >>> 23)
  h2 &&& 0x0fffffff

/-- qhash from kfmon.c: the `for` loop over the input bytes, accumulator
starting at 0. -/
def qhash (bytes : List Nat) : Nat :=
  bytes.foldl qhash_step 0

/-- The hash algorithm exactly as the spec words it (section 6 of spec.md):
"starting accumulator 0, for each input byte, shift accumulator left 4
bits, add the byte, then XOR in `(accumulator & 0xf0000000) >> 23`, then
mask to 28 bits" -- written independently of the C source, with no
mention of any 32-bit wrap. -/
def qhash_spec_step (h b : Nat) : Nat :=
  ((h <<< 4 + b) ^^^ (((h <<< 4 + b) &&& 0xf0000000) >>> 23)) &&& 0x0fffffff

/-- Fold of the spec-worded step, accumulator starting at 0. -/
def qhash_spec (bytes : List Nat) : Nat :=
  bytes.foldl qhash_spec_step 0

/-- dir1, from is_target_processed: `dir1 = hash & (0xff * 1)`. -/
def dir1 (hash : Nat) : Nat := hash &&& 0xff

/-- dir2, from is_target_processed: `dir2 = (hash & (0xff00 * 1)) >> 8`. -/
def dir2 (hash : Nat) : Nat := (hash &&& 0xff00) >>> 8

/-! ## Readiness oracle (is_target_processed) -/

/-- The three derived-artifact suffixes checked by is_target_processed:
`N3_FULL.parsed`, `N3_LIBRARY_FULL.parsed`, `N3_LIBRARY_GRID.parsed`. -/
inductive Thumb where
  | n3_full
  | n3_library_full
  | n3_library_grid
deriving DecidableEq, Repr

/-- Environment answers the C code obtains from SQLite and from
`access(2)` during one call of is_target_processed for one watch:
`content_row` is the result of
`SELECT EXISTS(SELECT 1 FROM content WHERE ContentID = @id AND ContentType = '6')`,
`image_id` is the `ImageID` row (its raw bytes) returned by the second
query, if any, and `file_ok d1 d2 iid t` is whether
`access("<mnt>/.kobo-images/<d1>/<d2>/<iid> - <t>.parsed", F_OK) == 0`. -/
structure OracleEnv where
  content_row : Bool
  image_id : Option (List Nat)
  file_ok : Nat → Nat → List Nat → Thumb → Bool

/-- is_target_processed from kfmon.c, as a function of the environment
answers.  The `wait_for_db` argument and the optional metadata-update
(`do_db_update`) block only affect the SQLite busy timeout, an UPDATE
statement and the rollback-journal wait; none of them changes the
returned `is_processed` value, which is what we model.  The
`skip_db_checks` early return is compiled only under `#ifdef DEBUG` and
is not part of the default build. -/
def is_target_processed (env : OracleEnv) (wait_for_db : Bool) : Bool :=
  -- first query: does the ContentType-6 row exist?
  if env.content_row then
    -- "Assume they haven't been processed until we can confirm it..."
    match env.image_id with
    | none => false
    | some iid =>
      let h := qhash iid
      let d1 := dir1 h
      let d2 := dir2 h
      let thumbnails_num : Nat :=
        (if env.file_ok d1 d2 iid Thumb.n3_full then 1 else 0)
          + (if env.file_ok d1 d2 iid Thumb.n3_library_full then 1 else 0)
          + (if env.file_ok d1 d2 iid Thumb.n3_library_grid then 1 else 0)
      -- "Only give a greenlight if we got all three!"
      thumbnails_num == 3
  else false

/-! ## Process table (struct process_table PT in kfmon.h, used by kfmon.c)

The C table is three parallel arrays of size WATCH_MAX
(`spawn_pids[i]`, `spawn_fds[i].fd`, `spawn_watchids[i]`), sentinel -1
for an available entry.  We model it as a list of per-slot records; the
capacity WATCH_MAX (whose numeric value lives in the missing kfmon.h) is
simply the list length, kept abstract.  The `events` field of the pollfd
is always POLLIN and plays no role in the logic.  Pids and pipe read fds
handed out by fork/pipe are nonnegative, so we carry them as `Nat` and
cast into the `Int`-valued table cells. -/
structure Slot where
  pid : Int
  fd : Int
  watchid : Int
deriving DecidableEq, Repr

/-- The sentinel-filled entry written by init_process_table and
remove_process_from_table. -/
def emptySlot : Slot := ⟨-1, -1, -1⟩

/-- init_process_table: every entry of the WATCH_MAX-sized table is set
to the -1 sentinels. -/
def init_process_table (watchMax : Nat) : List Slot :=
  List.replicate watchMax emptySlot

/-- get_next_available_pt_entry: linear scan for the first index whose
fd is -1; the C function returns -1 when the scan fails, modelled as
`none`. -/
def get_next_available_pt_entry (pt : List Slot) : Option Nat :=
  pt.findIdx? (fun s => s.fd == -1)

/-- add_process_to_table: record {pid, fd, watch_idx} at index i. -/
def add_process_to_table (pt : List Slot) (i : Nat) (pid fd : Nat)
    (watch_idx : Nat) : List Slot :=
  pt.set i ⟨(pid : Int), (fd : Int), (watch_idx : Int)⟩

/-- remove_process_from_table: close the pipe fd (an external effect)
and reset entry i to the sentinels. -/
def remove_process_from_table (pt : List Slot) (i : Nat) : List Slot :=
  pt.set i emptySlot

/-- The parent-side bookkeeping of spawn(): find a free slot and record
the forked child there; `none` models the fatal
`exit(EXIT_FAILURE)` taken when the table is full.  (The child-side
stream/signal dance and execvp are external effects.) -/
def spawn (pt : List Slot) (pid fd : Nat) (watch_idx : Nat) :
    Option (List Slot) :=
  match get_next_available_pt_entry pt with
  | none => none
  | some i => some (add_process_to_table pt i pid fd watch_idx)

/-- is_watch_already_spawned: walk the table looking for the watch
index. -/
def is_watch_already_spawned (pt : List Slot) (watch_idx : Nat) : Bool :=
  pt.any (fun s => s.watchid == (watch_idx : Int))

/-- get_spawn_pid_for_watch: pid of the first table entry carrying this
watch index, -1 if none. -/
def get_spawn_pid_for_watch (pt : List Slot) (watch_idx : Nat) : Int :=
  match pt.find? (fun s => s.watchid == (watch_idx : Int)) with
  | some s => s.pid
  | none => -1

/-- reap_zombie_processes walks indices 1 .. WATCH_MAX-1 and, for each
entry with a registered pid, does a WNOHANG waitpid; `exited i` is the
environment's answer (whether the child of slot i has already
terminated).  Each loop iteration touches only slot i, so the loop is
written as a structural recursion carrying the running index. -/
def reapFrom (exited : Nat → Bool) : Nat → List Slot → List Slot
  | _, [] => []
  | i, s :: rest =>
    (if 1 ≤ i ∧ s.pid ≠ -1 ∧ exited i = true then emptySlot else s)
      :: reapFrom exited (i + 1) rest

def reap_zombie_processes (pt : List Slot) (exited : Nat → Bool) : List Slot :=
  reapFrom exited 0 pt

/-- The pipe-readiness reap pass of main(): for indices 1 .. WATCH_MAX-1
whose pollfd reports POLLIN or POLLHUP (`ready i`), do a blocking
waitpid (retried on EINTR) and reset the slot. -/
def reapPipeFrom (ready : Nat → Bool) : Nat → List Slot → List Slot
  | _, [] => []
  | i, s :: rest =>
    (if 1 ≤ i ∧ ready i = true then emptySlot else s)
      :: reapPipeFrom ready (i + 1) rest

def reap_pipe_closed (pt : List Slot) (ready : Nat → Bool) : List Slot :=
  reapPipeFrom ready 0 pt

/-- main(): "Always hijack the first entry of the process table for our
inotify input fd" -- `PT.spawn_fds[0].fd = fd`. -/
def install_inotify_fd (pt : List Slot) (fd : Nat) : List Slot :=
  match pt with
  | [] => []
  | s :: rest => { s with fd := (fd : Int) } :: rest

/-! ## Watch set and inotify events (handle_events in kfmon.c) -/

/-- The runtime-mutable part of a watch_config entry: its inotify watch
descriptor and the per-generation `wd_was_destroyed` flag.  The
configuration strings (filename, action, DB fields) never influence the
control flow modelled here. -/
structure WatchCfg where
  inotify_wd : Int
  wd_was_destroyed : Bool
deriving DecidableEq, Repr

/-- One decoded `struct inotify_event`, together with the answers the
environment would give to the readiness-oracle calls the handler makes
for it.  The mask bits are independent (the C code tests each with `&`,
not `else if`).  `ready_now` is the value is_target_processed(w, false)
would return at the IN_OPEN check, `ready_wait` the value
is_target_processed(w, true) would return at the IN_CLOSE check. -/
structure InEvent where
  wd : Int
  is_open : Bool
  is_close : Bool
  is_unmount : Bool
  is_ignored : Bool
  is_overflow : Bool
  ready_now : Bool
  ready_wait : Bool
deriving DecidableEq, Repr

/-- Externally visible actions taken by the event handler: spawning the
companion command of a watch, and inotify_rm_watch on the descriptor of
a watch index. -/
inductive Action where
  | spawn (watch_idx : Nat)
  | rmWatch (watch_idx : Nat)
  | fatal
deriving DecidableEq, Repr

/-- Engine state threaded through the event loop: the watch table, the
process table, the `static bool pending_processing` of handle_events
(function-local static, so it persists across calls and across
generations), and the next pid/fd the OS will hand out on fork/pipe. -/
structure GState where
  watches : List WatchCfg
  pt : List Slot
  pending_processing : Bool
  next_pid : Nat
  next_fd : Nat
deriving DecidableEq, Repr

/-- Per-call locals of handle_events: `destroyed_wd` and
`was_unmounted`, both false on entry and shared by all events of the
call. -/
structure BatchSt where
  g : GState
  destroyed_wd : Bool
  was_unmounted : Bool
deriving DecidableEq, Repr

/-- The matching loop of handle_events: find the configured watch whose
inotify_wd equals the event's wd.  The C loop leaves watch_idx ==
watch_count when nothing matched (found_watch_idx false, logged but not
acted upon), which is exactly `List.findIdx`. -/
def matchWatch (watches : List WatchCfg) (wd : Int) : Nat :=
  watches.findIdx (fun w => w.inotify_wd == wd)

/-- The IN_OPEN branch: if no process is tracked for the watch, the
pending_processing flag is re-evaluated from the non-blocking readiness
check (`pending = !is_target_processed(w, false)`). -/
def handleOpen (b : BatchSt) (widx : Nat) (e : InEvent) : BatchSt :=
  if e.is_open then
    if !(is_watch_already_spawned b.g.pt widx) then
      { b with g := { b.g with pending_processing := !e.ready_now } }
    else b
  else b

/-- The IN_CLOSE branch: if no process is tracked for the watch and the
pending flag is clear and the blocking readiness check succeeds, spawn
the companion (recording it in the process table; a full table is the
fatal exit path). -/
def handleClose (b : BatchSt) (widx : Nat) (e : InEvent) :
    BatchSt × List Action :=
  if e.is_close then
    if !(is_watch_already_spawned b.g.pt widx) then
      if !b.g.pending_processing && e.ready_wait then
        match spawn b.g.pt b.g.next_pid b.g.next_fd widx with
        | none => (b, [Action.fatal])
        | some pt2 =>
          ({ b with g :=
              { b.g with
                  pt := pt2
                  next_pid := b.g.next_pid + 1
                  next_fd := b.g.next_fd + 1 } },
           [Action.spawn widx])
      else (b, [])
    else (b, [])
  else (b, [])

/-- The IN_UNMOUNT branch: remember the unmount. -/
def handleUnmount (b : BatchSt) (e : InEvent) : BatchSt :=
  if e.is_unmount then { b with was_unmounted := true } else b

/-- Mark watch widx as destroyed in the watch table.  (When widx ==
watch_count -- the unmatched-event case -- the C code writes one past
the configured entries; `List.set` out of range is a no-op.) -/
def markDestroyed (watches : List WatchCfg) (widx : Nat) : List WatchCfg :=
  match watches.get? widx with
  | none => watches
  | some w => watches.set widx { w with wd_was_destroyed := true }

/-- The IN_IGNORED branch: the kernel auto-removed the watch. -/
def handleIgnored (b : BatchSt) (widx : Nat) (e : InEvent) : BatchSt :=
  if e.is_ignored then
    { b with destroyed_wd := true,
             g := { b.g with watches := markDestroyed b.g.watches widx } }
  else b

/-- The IN_Q_OVERFLOW branch: try to deregister the matched watch
(inotify_rm_watch, failure only warned about) and flag it destroyed. -/
def handleOverflow (b : BatchSt) (widx : Nat) (e : InEvent) :
    BatchSt × List Action :=
  if e.is_overflow then
    ({ b with destroyed_wd := true,
              g := { b.g with watches := markDestroyed b.g.watches widx } },
     [Action.rmWatch widx])
  else (b, [])

/-- Handling of one decoded event, in the order of the C mask tests:
IN_OPEN, IN_CLOSE, IN_UNMOUNT, IN_IGNORED, IN_Q_OVERFLOW. -/
def processEvent (b : BatchSt) (e : InEvent) : BatchSt × List Action :=
  let widx := matchWatch b.g.watches e.wd
  let b1 := handleOpen b widx e
  let p2 := handleClose b1 widx e
  let b3 := handleUnmount p2.1 e
  let b4 := handleIgnored b3 widx e
  let p5 := handleOverflow b4 widx e
  (p5.1, p2.2 ++ p5.2)

/-- The inner `for` loop of handle_events over all decoded events of the
read buffer(s), accumulating actions in order. -/
def processBatch (b : BatchSt) : List InEvent → BatchSt × List Action
  | [] => (b, [])
  | e :: rest =>
    let p1 := processEvent b e
    let p2 := processBatch p1.1 rest
    (p2.1, p1.2 ++ p2.2)

/-- The generation-teardown loop run when destroyed_wd is set: walk all
configured watches in order; a watch whose wd_was_destroyed flag is
clear is deregistered via inotify_rm_watch -- unless the teardown was
caused by an unmount, in which case nothing is deregistered; a set flag
is reset for the next generation. -/
def cleanupFrom (was_unmounted : Bool) : Nat → List WatchCfg → List WatchCfg × List Action
  | _, [] => ([], [])
  | i, w :: rest =>
    let p := cleanupFrom was_unmounted (i + 1) rest
    if !w.wd_was_destroyed then
      (w :: p.1, (if !was_unmounted then [Action.rmWatch i] else []) ++ p.2)
    else
      ({ w with wd_was_destroyed := false } :: p.1, p.2)

/-- handle_events: process the decoded events, then, if a watch was
destroyed, run the teardown loop and report early exit (the returned
Bool) to main's inner loop.  The C read loop can consume several
buffers in one call; since `destroyed_wd`/`was_unmounted` persist across
those reads and the loop stops after the first buffer that set
destroyed_wd, one call is faithfully represented by the list of events
it actually processed. -/
def handle_events (g : GState) (events : List InEvent) :
    GState × Bool × List Action :=
  let p := processBatch ⟨g, false, false⟩ events
  if p.1.destroyed_wd then
    let c := cleanupFrom p.1.was_unmounted 0 p.1.g.watches
    ({ p.1.g with watches := c.1 }, true, p.2 ++ c.2)
  else
    (p.1.g, false, p.2)

/-- The per-generation setup of main's outer loop: a fresh inotify fd
(nonnegative), one inotify_add_watch per configured watch (the new
descriptors `wds`), and the fd hijacks process-table slot 0.  Note what
is NOT here: `pending_processing` is a function-local static of
handle_events and is not reset between generations. -/
def startGeneration (g : GState) (fd : Nat) (wds : List Int) : GState :=
  { g with
    watches := List.zipWith (fun w wd => { w with inotify_wd := wd }) g.watches wds,
    pt := install_inotify_fd g.pt fd }

/-- A concrete engine state with one configured watch (inotify
descriptor 1) and a process table of capacity 2 whose slot 0 holds the
inotify fd. -/
def g0 : GState :=
  { watches := [{ inotify_wd := 1, wd_was_destroyed := false }],
    pt := [{ pid := -1, fd := 7, watchid := -1 }, emptySlot],
    pending_processing := false,
    next_pid := 100,
    next_fd := 10 }

/-- An IN_OPEN event on descriptor 1 whose non-blocking readiness check
comes back not-ready. -/
def evOpenNotReady : InEvent :=
  { wd := 1, is_open := true, is_close := false, is_unmount := false,
    is_ignored := false, is_overflow := false, ready_now := false,
    ready_wait := false }

/-- An IN_CLOSE event on descriptor 1 whose blocking readiness check
comes back ready. -/
def evCloseReady : InEvent :=
  { wd := 1, is_open := false, is_close := true, is_unmount := false,
    is_ignored := false, is_overflow := false, ready_now := false,
    ready_wait := true }

/-- An IN_IGNORED event on descriptor 1 (kernel auto-removed the
watch). -/
def evIgnored : InEvent :=
  { wd := 1, is_open := false, is_close := false, is_unmount := false,
    is_ignored := true, is_overflow := false, ready_now := false,
    ready_wait := false }

/-- An IN_CLOSE event on descriptor 2 (the watch descriptor of the
second generation) whose blocking readiness check comes back ready. -/
def evCloseReadyGen2 : InEvent :=
  { wd := 2, is_open := false, is_close := true, is_unmount := false,
    is_ignored := false, is_overflow := false, ready_now := false,
    ready_wait := true }

/-! ## C2: at most one tracked process per watch -/

/-- A watch index appears in at most one process-table entry: for every
entry carrying a real (nonnegative) watch id, no other entry carries the
same id. -/
def AtMostOne (pt : List Slot) : Prop :=
  ∀ s ∈ pt, 0 ≤ s.watchid →
    pt.countP (fun t => t.watchid == s.watchid) ≤ 1

instance : DecidablePred AtMostOne := fun pt =>
  inferInstanceAs (Decidable (∀ s ∈ pt, _))

/-! ## C10: evaluation index of a decoded event -/

/-- An IN_Q_OVERFLOW event.  Real inotify queue-overflow events carry
wd == -1, which can never equal the descriptor of a configured watch, so
the matching loop always fails for them. -/
def evOverflow : InEvent :=
  { wd := -1, is_open := false, is_close := false, is_unmount := false,
    is_ignored := false, is_overflow := true, ready_now := false,
    ready_wait := false }

/-- The 32-bit wrap in the C accumulator is invisible after the 28-bit
mask: both the wrapped (code) and unwrapped (spec) step produce the same
value, bit for bit.  The wrap can actually fire (h close to `0x0fffffff`
with a byte ≥ 16 pushes `h << 4 + b` past `2 ^ 32`), but the overflow
bits are outside both the `0xf0000000` mask and the final `0x0fffffff`
mask. -/
theorem qhash_step_eq_spec_step (h b : Nat) :
    qhash_step h b = qhash_spec_step h b := by
  unfold qhash_step qhash_spec_step
  apply Nat.eq_of_testBit_eq
  intro i
  simp only [Nat.testBit_and, Nat.testBit_xor, Nat.testBit_shiftRight,
    Nat.testBit_mod_two_pow]
  by_cases hi : i < 28
  · have h32 : i < 32 := by omega
    by_cases h9 : 23 + i < 32
    · simp [h9, h32]
    · have hpow : (4026531840 : Nat) < 2 ^ (23 + i) := by
        calc (4026531840 : Nat) < 2 ^ 32 := by norm_num
          _ ≤ 2 ^ (23 + i) := Nat.pow_le_pow_right (by norm_num) (by omega)
      have hz : Nat.testBit 4026531840 (23 + i) = false :=
        Nat.testBit_lt_two_pow hpow
      simp [h9, h32, hz]
  · have hpow : (268435455 : Nat) < 2 ^ i := by
      calc (268435455 : Nat) < 2 ^ 28 := by norm_num
        _ ≤ 2 ^ i := Nat.pow_le_pow_right (by norm_num) (by omega)
    have hz : Nat.testBit 268435455 i = false := Nat.testBit_lt_two_pow hpow
    simp [hz]

theorem qhash_step_funext : qhash_step = qhash_spec_step :=
  funext fun h => funext fun b => qhash_step_eq_spec_step h b

theorem qhash_foldl_eq_spec (bytes : List Nat) (h : Nat) :
    bytes.foldl qhash_step h = bytes.foldl qhash_spec_step h := by
  rw [qhash_step_funext]

/-- C3: is_target_processed returns true exactly when the ContentType-6
content record exists, the ImageID row is returned, and all three derived
artifacts (full-screen preview, home-tile preview, grid-thumbnail
preview) are present on disk; in particular with only 2 of the 3
artifacts present it returns false, and it flips to true once the third
appears. -/
theorem c3_readiness_requires_all_three (env : OracleEnv) (w : Bool) :
    is_target_processed env w = true ↔
      env.content_row = true ∧
        ∃ iid, env.image_id = some iid ∧
          env.file_ok (dir1 (qhash iid)) (dir2 (qhash iid)) iid Thumb.n3_full = true ∧
          env.file_ok (dir1 (qhash iid)) (dir2 (qhash iid)) iid Thumb.n3_library_full = true ∧
          env.file_ok (dir1 (qhash iid)) (dir2 (qhash iid)) iid Thumb.n3_library_grid = true := by
  cases hc : env.content_row with
  | false => simp [is_target_processed, hc]
  | true =>
    cases himg : env.image_id with
    | none => simp [is_target_processed, hc, himg]
    | some iid =>
      simp only [is_target_processed, hc, himg, if_true]
      cases h1 : env.file_ok (dir1 (qhash iid)) (dir2 (qhash iid)) iid Thumb.n3_full <;>
        cases h2 : env.file_ok (dir1 (qhash iid)) (dir2 (qhash iid)) iid Thumb.n3_library_full <;>
          cases h3 : env.file_ok (dir1 (qhash iid)) (dir2 (qhash iid)) iid Thumb.n3_library_grid <;>
            simp [h1, h2, h3]

/-- C4: the mixing hash is a pure deterministic function of its input
bytes, it coincides with the algorithm as the spec words it (for every
input, the 32-bit wrap of the C accumulator being erased by the 28-bit
mask), identical ImageID byte sequences give identical (dir1, dir2)
pairs, and a concrete fixture vector evaluates as expected. -/
theorem c4_qhash_deterministic :
    (∀ bytes : List Nat, qhash bytes = qhash_spec bytes)
      ∧ (∀ b1 b2 : List Nat, b1 = b2 →
          (dir1 (qhash b1), dir2 (qhash b1)) = (dir1 (qhash b2), dir2 (qhash b2)))
      ∧ qhash [116, 101, 115, 116] = 502948
      ∧ (dir1 (qhash [116, 101, 115, 116]), dir2 (qhash [116, 101, 115, 116])) = (164, 172) := by
  refine ⟨?_, ?_, ?_, ?_⟩
  · intro bytes
    exact qhash_foldl_eq_spec bytes 0
  · intro b1 b2 h
    rw [h]
  · decide
  · decide

/-! ## Structural facts about the event handlers -/
theorem handleOpen_pt (b : BatchSt) (i : Nat) (e : InEvent) :
    (handleOpen b i e).g.pt = b.g.pt := by
  unfold handleOpen
  split <;> [skip; rfl]
  split <;> rfl

theorem handleOpen_watches (b : BatchSt) (i : Nat) (e : InEvent) :
    (handleOpen b i e).g.watches = b.g.watches := by
  unfold handleOpen
  split <;> [skip; rfl]
  split <;> rfl

theorem handleUnmount_g (b : BatchSt) (e : InEvent) :
    (handleUnmount b e).g = b.g := by
  unfold handleUnmount
  split <;> rfl

theorem handleIgnored_pt (b : BatchSt) (i : Nat) (e : InEvent) :
    (handleIgnored b i e).g.pt = b.g.pt := by
  unfold handleIgnored
  split <;> rfl

theorem handleIgnored_pending (b : BatchSt) (i : Nat) (e : InEvent) :
    (handleIgnored b i e).g.pending_processing = b.g.pending_processing := by
  unfold handleIgnored
  split <;> rfl

theorem handleOverflow_pt (b : BatchSt) (i : Nat) (e : InEvent) :
    ((handleOverflow b i e).1).g.pt = b.g.pt := by
  unfold handleOverflow
  split <;> rfl

theorem handleOverflow_pending (b : BatchSt) (i : Nat) (e : InEvent) :
    ((handleOverflow b i e).1).g.pending_processing = b.g.pending_processing := by
  unfold handleOverflow
  split <;> rfl

theorem handleOverflow_acts (b : BatchSt) (i : Nat) (e : InEvent) :
    (handleOverflow b i e).2 = [] ∨ (handleOverflow b i e).2 = [Action.rmWatch i] := by
  unfold handleOverflow
  split <;> simp

theorem handleClose_not_tracked_pending (b : BatchSt) (i : Nat) (e : InEvent)
    (hp : b.g.pending_processing = true) :
    handleClose b i e = (b, []) := by
  unfold handleClose
  split <;> [skip; rfl]
  split <;> [skip; rfl]
  split
  · simp [hp] at *
  · rfl

/-- C1: an "opened" event for an untracked watch where the non-blocking
readiness check reports not-ready sets the pending flag, and the
immediately following "closed" event for the same watch is then
suppressed: no companion is spawned, whatever the blocking readiness
check at the closed event would report. -/
theorem c1_pending_flag_blocks_spawn (g : GState) (d : Int) (rb : Bool)
    (h : is_watch_already_spawned g.pt (matchWatch g.watches d) = false) :
    (processBatch ⟨g, false, false⟩
      [{ wd := d, is_open := true, is_close := false, is_unmount := false,
         is_ignored := false, is_overflow := false, ready_now := false,
         ready_wait := false },
       { wd := d, is_open := false, is_close := true, is_unmount := false,
         is_ignored := false, is_overflow := false, ready_now := false,
         ready_wait := rb }]).2 = [] := by
  simp [processBatch, processEvent, handleOpen, handleClose, handleUnmount,
    handleIgnored, handleOverflow, h]

theorem c1_pending_flag_blocks_spawn_witness :
    (processBatch ⟨g0, false, false⟩
      [{ wd := 1, is_open := true, is_close := false, is_unmount := false,
         is_ignored := false, is_overflow := false, ready_now := false,
         ready_wait := false },
       { wd := 1, is_open := false, is_close := true, is_unmount := false,
         is_ignored := false, is_overflow := false, ready_now := false,
         ready_wait := true }]).2 = [] :=
  c1_pending_flag_blocks_spawn g0 1 true (by decide)

theorem handleClose_g_pending (b : BatchSt) (i : Nat) (e : InEvent) :
    ((handleClose b i e).1).g.pending_processing = b.g.pending_processing := by
  unfold handleClose
  split <;> [skip; rfl]
  split <;> [skip; rfl]
  split <;> [skip; rfl]
  split <;> rfl

theorem handleOpen_pending_of_untracked (b : BatchSt) (i : Nat) (e : InEvent)
    (ho : e.is_open = true) (hn : is_watch_already_spawned b.g.pt i = false) :
    (handleOpen b i e).g.pending_processing = !e.ready_now := by
  unfold handleOpen
  simp [ho, hn]

theorem processEvent_pending_of_open (b : BatchSt) (e : InEvent)
    (ho : e.is_open = true)
    (hn : is_watch_already_spawned b.g.pt (matchWatch b.g.watches e.wd) = false) :
    (processEvent b e).1.g.pending_processing = !e.ready_now := by
  simp only [processEvent]
  rw [handleOverflow_pending, handleIgnored_pending, handleUnmount_g,
    handleClose_g_pending, handleOpen_pending_of_untracked b _ e ho hn]

/-- C6, counterexample: from a fresh state, an "opened" (oracle
not-ready) followed by two "closed" events (oracle ready both times,
watch untracked, no intervening "opened") spawns nothing at all -- the
code's pending flag still suppresses the second closed observation --
and the flag is still set afterwards.  The claim predicts the second
closed event is no longer suppressed by the flag, i.e. that a spawn
would occur there. -/
theorem c6_counterexample_second_close_still_suppressed :
    (handle_events g0 [evOpenNotReady, evCloseReady, evCloseReady]).2.2 = []
      ∧ (handle_events g0 [evOpenNotReady, evCloseReady, evCloseReady]).1.pending_processing
          = true := by
  exact ⟨by decide, by decide⟩

/-- C6, amended: once set, the pending flag suppresses every subsequent
"closed" event (a closed observation never clears the flag and emits no
spawn while the flag is set); the flag is only re-evaluated -- set or
cleared from the non-blocking readiness answer -- by the next "opened"
observation for a watch with no tracked process. -/
theorem c6_amended_flag_persists_until_open :
    (∀ b e, b.g.pending_processing = true → e.is_open = false →
      (processEvent b e).1.g.pending_processing = true
        ∧ ∀ w, Action.spawn w ∉ (processEvent b e).2)
      ∧ (∀ b e, e.is_open = true →
          is_watch_already_spawned b.g.pt (matchWatch b.g.watches e.wd) = false →
          (processEvent b e).1.g.pending_processing = !e.ready_now) := by
  constructor
  · intro b e hp ho
    have hOpen : handleOpen b (matchWatch b.g.watches e.wd) e = b := by
      unfold handleOpen
      simp [ho]
    have hClose : handleClose b (matchWatch b.g.watches e.wd) e = (b, []) :=
      handleClose_not_tracked_pending b _ e hp
    constructor
    · simp only [processEvent, hOpen, hClose]
      rw [handleOverflow_pending, handleIgnored_pending, handleUnmount_g]
      exact hp
    · intro w
      simp only [processEvent, hOpen, hClose]
      rcases handleOverflow_acts
          (handleIgnored (handleUnmount b e) (matchWatch b.g.watches e.wd) e)
          (matchWatch b.g.watches e.wd) e with hov | hov <;> simp [hov]
  · intro b e ho hn
    exact processEvent_pending_of_open b e ho hn

theorem c6_amended_flag_persists_until_open_witness :
    (processEvent ⟨{ g0 with pending_processing := true }, false, false⟩
      evCloseReady).1.g.pending_processing = true :=
  (c6_amended_flag_persists_until_open.1
    ⟨{ g0 with pending_processing := true }, false, false⟩ evCloseReady
    (by decide) (by decide)).1

/-- C7, counterexample: generation 1 sees an "opened" with the oracle
not-ready (flag set) and then loses its watch to IN_IGNORED, ending the
generation.  `pending_processing` is a function-local static, so its
value (still true) survives into generation 2, where a "closed" event
with the oracle ready spawns nothing -- while the very same generation-2
state with the flag cleared does spawn.  The carried-over flag therefore
suppresses a spawn decision in a later generation, contradicting the
claim that it cannot. -/
theorem c7_counterexample_flag_crosses_generations :
    (handle_events g0 [evOpenNotReady, evIgnored]).2.1 = true
      ∧ (startGeneration (handle_events g0 [evOpenNotReady, evIgnored]).1 8
            [2]).pending_processing = true
      ∧ (handle_events
            (startGeneration (handle_events g0 [evOpenNotReady, evIgnored]).1 8 [2])
            [evCloseReadyGen2]).2.2 = []
      ∧ (handle_events
            { startGeneration (handle_events g0 [evOpenNotReady, evIgnored]).1 8 [2]
                with pending_processing := false }
            [evCloseReadyGen2]).2.2 = [Action.spawn 0] := by
  exact ⟨by decide, by decide, by decide, by decide⟩

/-- C7, amended: the pending flag is a single process-wide bit,
re-evaluated on each "opened" observation for a watch with no tracked
process; but it is a function-local static of handle_events, so neither
the generation setup nor the generation teardown resets it -- its value
carries over from one notification-subsystem generation into the
next. -/
theorem c7_amended_flag_not_generation_scoped :
    (∀ g fd wds, (startGeneration g fd wds).pending_processing
        = g.pending_processing)
      ∧ (∀ g events, (handle_events g events).1.pending_processing
          = (processBatch ⟨g, false, false⟩ events).1.g.pending_processing)
      ∧ (∀ b e, e.is_open = true →
          is_watch_already_spawned b.g.pt (matchWatch b.g.watches e.wd) = false →
          (processEvent b e).1.g.pending_processing = !e.ready_now) := by
  refine ⟨fun g fd wds => rfl, ?_, processEvent_pending_of_open⟩
  intro g events
  simp only [handle_events]
  split <;> rfl

theorem c7_amended_flag_not_generation_scoped_witness :
    (processEvent ⟨g0, false, false⟩ evOpenNotReady).1.g.pending_processing
      = !evOpenNotReady.ready_now :=
  c7_amended_flag_not_generation_scoped.2.2 ⟨g0, false, false⟩ evOpenNotReady
    (by decide) (by decide)

theorem countP_set_le (l : List Slot) (j : Nat) (a : Slot) (p : Slot → Bool) :
    (l.set j a).countP p ≤ l.countP p + (if p a then 1 else 0) := by
  induction l generalizing j with
  | nil => simp
  | cons x xs ih =>
    cases j with
    | zero =>
      simp only [List.set_cons_zero, List.countP_cons]
      split_ifs <;> omega
    | succ n =>
      simp only [List.set_cons_succ, List.countP_cons]
      have := ih n
      split_ifs at * <;> omega

theorem countP_eq_zero_of_not_spawned (pt : List Slot) (widx : Nat)
    (hn : is_watch_already_spawned pt widx = false) :
    pt.countP (fun t => t.watchid == (widx : Int)) = 0 := by
  rw [List.countP_eq_zero]
  intro t ht
  have := List.any_eq_false.mp hn t ht
  simpa using this

theorem atMostOne_spawn (pt : List Slot) (pid fd widx : Nat) (pt2 : List Slot)
    (hn : is_watch_already_spawned pt widx = false)
    (hs : spawn pt pid fd widx = some pt2)
    (hi : AtMostOne pt) : AtMostOne pt2 := by
  unfold spawn at hs
  cases hfind : get_next_available_pt_entry pt with
  | none => rw [hfind] at hs; exact absurd hs (by simp)
  | some j =>
    rw [hfind] at hs
    simp only [Option.some.injEq] at hs
    subst hs
    unfold add_process_to_table
    intro s hmem hpos
    have hmem2 := List.mem_or_eq_of_mem_set hmem
    rcases hmem2 with hin | heq
    · -- s was already in the table
      have hneq : s.watchid ≠ (widx : Int) := by
        intro hcontra
        have := List.any_eq_false.mp hn s hin
        simp [hcontra] at this
      have hple := countP_set_le pt j
        ⟨(pid : Int), (fd : Int), (widx : Int)⟩
        (fun t => t.watchid == s.watchid)
      have hnew : ((⟨(pid : Int), (fd : Int), (widx : Int)⟩ : Slot).watchid
          == s.watchid) = false := by
        show ((widx : Int) == s.watchid) = false
        exact beq_eq_false_iff_ne.mpr (Ne.symm hneq)
      rw [hnew] at hple
      have hle := hi s hin hpos
      simp only [if_neg Bool.false_ne_true] at hple
      omega
    · -- s is the freshly recorded entry
      subst heq
      have hwid : (⟨(pid : Int), (fd : Int), (widx : Int)⟩ : Slot).watchid
          = (widx : Int) := rfl
      simp only [hwid]
      have hzero := countP_eq_zero_of_not_spawned pt widx hn
      have hple := countP_set_le pt j
        ⟨(pid : Int), (fd : Int), (widx : Int)⟩
        (fun t => t.watchid == (widx : Int))
      simp only [hwid, hzero] at hple
      split_ifs at hple <;> omega

theorem handleOpen_next_pid (b : BatchSt) (i : Nat) (e : InEvent) :
    (handleOpen b i e).g.next_pid = b.g.next_pid := by
  unfold handleOpen
  split <;> [skip; rfl]
  split <;> rfl

theorem handleOpen_next_fd (b : BatchSt) (i : Nat) (e : InEvent) :
    (handleOpen b i e).g.next_fd = b.g.next_fd := by
  unfold handleOpen
  split <;> [skip; rfl]
  split <;> rfl

theorem handleClose_pt_cases (b : BatchSt) (i : Nat) (e : InEvent) :
    ((handleClose b i e).1).g.pt = b.g.pt ∨
      (is_watch_already_spawned b.g.pt i = false ∧
        spawn b.g.pt b.g.next_pid b.g.next_fd i
          = some ((handleClose b i e).1).g.pt) := by
  cases hcl : e.is_close with
  | false => exact Or.inl (by simp [handleClose, hcl])
  | true =>
    cases hsp : is_watch_already_spawned b.g.pt i with
    | true => exact Or.inl (by simp [handleClose, hcl, hsp])
    | false =>
      cases hcond : (!b.g.pending_processing && e.ready_wait) with
      | false => exact Or.inl (by simp [handleClose, hcl, hsp, hcond])
      | true =>
        cases hspawn : spawn b.g.pt b.g.next_pid b.g.next_fd i with
        | none => exact Or.inl (by simp [handleClose, hcl, hsp, hcond, hspawn])
        | some pt2 =>
          refine Or.inr ⟨rfl, ?_⟩
          simp [handleClose, hcl, hsp, hcond, hspawn]

theorem handleClose_acts_of_tracked (b : BatchSt) (i : Nat) (e : InEvent)
    (htr : is_watch_already_spawned b.g.pt i = true) :
    (handleClose b i e).2 = [] := by
  cases hcl : e.is_close with
  | false => simp [handleClose, hcl]
  | true => simp [handleClose, hcl, htr]

/-- C2: (a) the at-most-one-entry-per-watch invariant of the process
table is preserved by the handling of any event (a spawn is guarded by
is_watch_already_spawned, and a fresh entry only ever lands in a free
slot); (b) while a process is tracked for the matched watch, the event
emits no spawn action at all -- a second "closed" event while the
earlier spawn is unreaped never spawns again. -/
theorem c2_at_most_one_in_flight (b : BatchSt) (e : InEvent)
    (hi : AtMostOne b.g.pt) :
    AtMostOne (processEvent b e).1.g.pt
      ∧ (is_watch_already_spawned b.g.pt (matchWatch b.g.watches e.wd) = true →
          ∀ w, Action.spawn w ∉ (processEvent b e).2) := by
  constructor
  · simp only [processEvent]
    rw [handleOverflow_pt, handleIgnored_pt, handleUnmount_g]
    rcases handleClose_pt_cases (handleOpen b (matchWatch b.g.watches e.wd) e)
        (matchWatch b.g.watches e.wd) e with hsame | ⟨hnsp, hsp⟩
    · rw [hsame, handleOpen_pt]; exact hi
    · rw [handleOpen_pt] at hnsp
      rw [handleOpen_pt, handleOpen_next_pid, handleOpen_next_fd] at hsp
      exact atMostOne_spawn b.g.pt b.g.next_pid b.g.next_fd _ _ hnsp hsp hi
  · intro htr w
    simp only [processEvent]
    have hno : (handleClose (handleOpen b (matchWatch b.g.watches e.wd) e)
        (matchWatch b.g.watches e.wd) e).2 = [] := by
      apply handleClose_acts_of_tracked
      rw [handleOpen_pt]
      exact htr
    rw [hno]
    rcases handleOverflow_acts
        (handleIgnored (handleUnmount (handleClose
            (handleOpen b (matchWatch b.g.watches e.wd) e)
            (matchWatch b.g.watches e.wd) e).1 e)
          (matchWatch b.g.watches e.wd) e)
        (matchWatch b.g.watches e.wd) e with hov | hov <;> simp [hov]

theorem c2_at_most_one_in_flight_witness :
    AtMostOne (processEvent ⟨g0, false, false⟩ evCloseReady).1.g.pt :=
  (c2_at_most_one_in_flight ⟨g0, false, false⟩ evCloseReady (by decide)).1

/-! ## C5: teardown of the remaining watches at generation end -/
theorem cleanupFrom_unmounted_acts (ws : List WatchCfg) :
    ∀ i, (cleanupFrom true i ws).2 = [] := by
  induction ws with
  | nil => intro i; rfl
  | cons w rest ih =>
    intro i
    simp only [cleanupFrom]
    split <;> simp [ih]

theorem cleanupFrom_valid_watch_deregistered (ws : List WatchCfg) :
    ∀ (i w : Nat) (hw : w < ws.length),
      (ws.get ⟨w, hw⟩).wd_was_destroyed = false →
      Action.rmWatch (i + w) ∈ (cleanupFrom false i ws).2 := by
  induction ws with
  | nil => intro i w hw; simp at hw
  | cons x rest ih =>
    intro i w hw hflag
    cases w with
    | zero =>
      simp only [List.get] at hflag
      simp [cleanupFrom, hflag]
    | succ n =>
      have hw2 : n < rest.length := by simpa using hw
      have hflag2 : (rest.get ⟨n, hw2⟩).wd_was_destroyed = false := by
        simpa [List.get_cons_succ] using hflag
      have hmem := ih (i + 1) n hw2 hflag2
      have harith : i + 1 + n = i + (n + 1) := by omega
      rw [harith] at hmem
      simp only [cleanupFrom]
      split <;> simp [hmem]

/-- C5: when handle_events exits because a watch was destroyed, its
action trace is the in-batch actions followed by the teardown pass; the
teardown pass deregisters nothing when the cause was an unmount, and
otherwise explicitly deregisters every configured watch whose
wd_was_destroyed flag is still clear, before the new generation
starts. -/
theorem c5_generation_recovery :
    (∀ g events,
        (processBatch ⟨g, false, false⟩ events).1.destroyed_wd = true →
        (handle_events g events).2.2
          = (processBatch ⟨g, false, false⟩ events).2
              ++ (cleanupFrom (processBatch ⟨g, false, false⟩ events).1.was_unmounted
                    0 (processBatch ⟨g, false, false⟩ events).1.g.watches).2)
      ∧ (∀ ws i, (cleanupFrom true i ws).2 = [])
      ∧ (∀ (ws : List WatchCfg) (w : Nat) (hw : w < ws.length),
          (ws.get ⟨w, hw⟩).wd_was_destroyed = false →
          Action.rmWatch w ∈ (cleanupFrom false 0 ws).2) := by
  refine ⟨?_, fun ws i => cleanupFrom_unmounted_acts ws i, ?_⟩
  · intro g events hd
    simp only [handle_events, hd, if_true]
  · intro ws w hw hflag
    have := cleanupFrom_valid_watch_deregistered ws 0 w hw hflag
    simpa using this

theorem c5_generation_recovery_witness :
    Action.rmWatch 1 ∈ (cleanupFrom false 0
      [{ inotify_wd := 1, wd_was_destroyed := true },
       { inotify_wd := 2, wd_was_destroyed := false }]).2 :=
  c5_generation_recovery.2.2
    [{ inotify_wd := 1, wd_was_destroyed := true },
     { inotify_wd := 2, wd_was_destroyed := false }] 1 (by decide) (by decide)

/-! ## C8: slot 0 of the process table is reserved for the inotify fd -/

/-- C8: both reap passes (the WNOHANG defensive sweep and the
pipe-readiness reap) start at index 1 and leave slot 0 untouched for
every environment, and a spawn into a table whose slot 0 holds the
inotify descriptor (fd not -1, as installed by main) never lands in
slot 0: the recorded table still has the very same slot 0. -/
theorem c8_slot_zero_reserved :
    (∀ pt exited, (reap_zombie_processes pt exited)[0]? = pt[0]?)
      ∧ (∀ pt ready, (reap_pipe_closed pt ready)[0]? = pt[0]?)
      ∧ (∀ (s : Slot) (rest : List Slot) (pid fd w : Nat) (pt2 : List Slot),
          s.fd ≠ -1 → spawn (s :: rest) pid fd w = some pt2 →
          pt2[0]? = some s) := by
  refine ⟨?_, ?_, ?_⟩
  · intro pt exited
    cases pt with
    | nil => rfl
    | cons s rest =>
      simp [reap_zombie_processes, reapFrom]
  · intro pt ready
    cases pt with
    | nil => rfl
    | cons s rest =>
      simp [reap_pipe_closed, reapPipeFrom]
  · intro s rest pid fd w pt2 hfd hs
    have hbeq : (s.fd == (-1 : Int)) = false := beq_eq_false_iff_ne.mpr hfd
    unfold spawn get_next_available_pt_entry at hs
    rw [List.findIdx?_cons, hbeq, if_neg (by simp), List.findIdx?_succ] at hs
    cases hrest : List.findIdx? (fun t => t.fd == -1) rest with
    | none => rw [hrest] at hs; simp at hs
    | some j =>
      rw [hrest] at hs
      simp only [Option.map_some', Option.some.injEq] at hs
      unfold add_process_to_table at hs
      rw [← hs, List.set_cons_succ, List.getElem?_cons_zero]

theorem c8_slot_zero_reserved_witness :
    ([{ pid := -1, fd := 7, watchid := -1 }, emptySlot].set 1
        ⟨(100 : Int), (10 : Int), (0 : Int)⟩)[0]?
      = some { pid := -1, fd := 7, watchid := -1 } :=
  c8_slot_zero_reserved.2.2 { pid := -1, fd := 7, watchid := -1 } [emptySlot]
    100 10 0
    ([{ pid := -1, fd := 7, watchid := -1 }, emptySlot].set 1
      ⟨(100 : Int), (10 : Int), (0 : Int)⟩)
    (by decide) (by decide)

/-! ## C9: spawn bookkeeping and capacity -/
theorem get_next_first_free (pt : List Slot) :
    ∀ i, get_next_available_pt_entry pt = some i →
      ∃ s, pt[i]? = some s ∧ s.fd = -1 ∧
        ∀ j, j < i → ∀ t, pt[j]? = some t → t.fd ≠ -1 := by
  induction pt with
  | nil => intro i h; simp [get_next_available_pt_entry] at h
  | cons x rest ih =>
    intro i h
    unfold get_next_available_pt_entry at h
    rw [List.findIdx?_cons] at h
    by_cases hx : (x.fd == (-1 : Int)) = true
    · rw [if_pos (by simp [hx])] at h
      cases h
      refine ⟨x, by simp, by simpa using hx, ?_⟩
      intro j hj
      omega
    · rw [if_neg (by simpa using hx), List.findIdx?_succ] at h
      cases hr : List.findIdx? (fun t => t.fd == -1) rest with
      | none => rw [hr] at h; simp at h
      | some k =>
        rw [hr] at h
        simp only [Option.map_some', Option.some.injEq] at h
        subst h
        obtain ⟨s, hget, hsfd, hbefore⟩ := ih k hr
        refine ⟨s, by rw [List.getElem?_cons_succ]; exact hget, hsfd, ?_⟩
        intro j hj t hget2
        cases j with
        | zero =>
          simp only [List.getElem?_cons_zero, Option.some.injEq] at hget2
          subst hget2
          simpa using hx
        | succ m =>
          have hm : m < k := by omega
          exact hbefore m hm t (by rw [← List.getElem?_cons_succ (a := x)]; exact hget2)

/-- C9: spawn bookkeeping: (a) a successful slot lookup returns the
first free slot of the linear scan (its fd is the -1 sentinel and every
earlier slot is occupied); (b) when no slot is free, spawn is the fatal
path; (c) a successful spawn records exactly {pid, read fd, watch_index}
in that slot and preserves the table length; (d) the table starts with
WATCH_MAX entries and the number of tracked processes can never exceed
the table length. -/
theorem c9_spawn_first_free_or_fatal :
    (∀ pt i, get_next_available_pt_entry pt = some i →
        ∃ s, pt[i]? = some s ∧ s.fd = -1 ∧
          ∀ j, j < i → ∀ t, pt[j]? = some t → t.fd ≠ -1)
      ∧ (∀ pt (pid fd w : Nat), get_next_available_pt_entry pt = none →
          spawn pt pid fd w = none)
      ∧ (∀ pt (pid fd w i : Nat), get_next_available_pt_entry pt = some i →
          spawn pt pid fd w
              = some (pt.set i ⟨(pid : Int), (fd : Int), (w : Int)⟩)
            ∧ (pt.set i ⟨(pid : Int), (fd : Int), (w : Int)⟩)[i]?
                = some ⟨(pid : Int), (fd : Int), (w : Int)⟩
            ∧ (pt.set i ⟨(pid : Int), (fd : Int), (w : Int)⟩).length = pt.length)
      ∧ (∀ n, (init_process_table n).length = n)
      ∧ (∀ pt : List Slot, pt.countP (fun s => s.pid != -1) ≤ pt.length) := by
  refine ⟨get_next_first_free, ?_, ?_, ?_, ?_⟩
  · intro pt pid fd w h
    simp [spawn, h]
  · intro pt pid fd w i h
    obtain ⟨s, hget, hsfd, _⟩ := get_next_first_free pt i h
    have hlt : i < pt.length := by
      by_contra hge
      rw [List.getElem?_eq_none (by omega)] at hget
      exact absurd hget (by simp)
    refine ⟨by simp [spawn, h, add_process_to_table], ?_, List.length_set pt i _⟩
    exact List.getElem?_set_self hlt
  · intro n
    simp [init_process_table]
  · intro pt
    exact List.countP_le_length _

theorem c9_spawn_first_free_or_fatal_witness :
    spawn [{ pid := 5, fd := 4, watchid := 0 }] 100 10 0 = none :=
  c9_spawn_first_free_or_fatal.2.1 [{ pid := 5, fd := 4, watchid := 0 }]
    100 10 0 (by decide)

/-- C10, counterexample: with one configured watch (watch_count = 1), an
IN_Q_OVERFLOW event (wd = -1) matches no watch, yet handle_events still
evaluates it -- at watch_idx = 1 = watch_count, one past the configured
range: the handler emits the inotify_rm_watch action for index 1 (the C
code reads `watch_config[1].inotify_wd` and sets
`watch_config[1].wd_was_destroyed`, an out-of-bounds access when
watch_count == WATCH_MAX).  The claim says the index used is always
strictly below watch_count and that an unmatched event is not evaluated
against any watch entry. -/
theorem c10_counterexample_unmatched_event_still_evaluated :
    matchWatch g0.watches (-1) = 1
      ∧ g0.watches.length = 1
      ∧ ¬ matchWatch g0.watches (-1) < g0.watches.length
      ∧ (processEvent ⟨g0, false, false⟩ evOverflow).2 = [Action.rmWatch 1] := by
  exact ⟨by decide, by decide, by decide, by decide⟩

theorem findIdx_eq_length_of_none (ws : List WatchCfg) (wd : Int)
    (h : ∀ w ∈ ws, w.inotify_wd ≠ wd) : matchWatch ws wd = ws.length := by
  apply List.findIdx_eq_length.mpr
  intro w hw
  exact beq_eq_false_iff_ne.mpr (h w hw)

/-- C10, amended: when the event's descriptor matches some configured
watch, the index used is indeed strictly below watch_count; but when no
watch matches, the code logs the mismatch and still evaluates the event
at index watch_count (one past the configured range) -- in particular an
IN_Q_OVERFLOW event with an unmatched descriptor produces a
deregistration action for index watch_count. -/
theorem c10_amended_unmatched_index_is_watch_count :
    (∀ (ws : List WatchCfg) (wd : Int), (∃ w ∈ ws, w.inotify_wd = wd) →
        matchWatch ws wd < ws.length)
      ∧ (∀ (b : BatchSt) (e : InEvent), e.is_overflow = true →
          (∀ w ∈ b.g.watches, w.inotify_wd ≠ e.wd) →
          matchWatch b.g.watches e.wd = b.g.watches.length
            ∧ Action.rmWatch b.g.watches.length ∈ (processEvent b e).2) := by
  constructor
  · intro ws wd hex
    apply List.findIdx_lt_length_of_exists
    obtain ⟨w, hw, heq⟩ := hex
    exact ⟨w, hw, by simpa using heq⟩
  · intro b e hov hnone
    have hidx : matchWatch b.g.watches e.wd = b.g.watches.length :=
      findIdx_eq_length_of_none b.g.watches e.wd hnone
    refine ⟨hidx, ?_⟩
    simp only [processEvent, hidx]
    have hoacts : ∀ b4, (handleOverflow b4 b.g.watches.length e).2
        = [Action.rmWatch b.g.watches.length] := by
      intro b4
      simp [handleOverflow, hov]
    rw [hoacts]
    simp

theorem c10_amended_unmatched_index_is_watch_count_witness :
    Action.rmWatch 1 ∈ (processEvent ⟨g0, false, false⟩ evOverflow).2 := by
  have h := (c10_amended_unmatched_index_is_watch_count.2
    ⟨g0, false, false⟩ evOverflow (by decide) (by decide)).2
  simpa using h

theorem c4_qhash_deterministic_witness :
    (dir1 (qhash [116, 101, 115, 116]), dir2 (qhash [116, 101, 115, 116]))
      = (dir1 (qhash [116, 101, 115, 116]), dir2 (qhash [116, 101, 115, 116])) :=
  c4_qhash_deterministic.2.1 [116, 101, 115, 116] [116, 101, 115, 116] rfl

end KFMon
